import Mathlib

/-!
Verification of the DRADIS concurrent relevance-analysis pipeline.

This file shallowly embeds the Python source modules
`src/friends_manager.py`, `src/relevance_engine.py`, `src/fast_analyzer.py`
and `src/database.py` into Lean and settles the frozen claims about them.

Conventions of the embedding:
* Python strings are `List Char` (called `Str` below); `str.lower`,
  `str.strip`, `str.split`, substring tests (`in`) and `re.findall(r'\w+')`
  are modelled character by character.  The `\w` class is modelled by its
  ASCII portion (all inputs of interest are ASCII).
* Python floats are modelled as exact rationals `ℚ`; the single
  transcendental computation (`np.exp` in the recency score) is modelled
  with `Real.exp` over `ℝ`.
* `difflib.SequenceMatcher.ratio` (used with no junk, on short strings, so
  the autojunk heuristic never fires) is modelled by the
  Ratcliff/Obershelp computation it implements: repeatedly take the
  longest matching block (ties: smallest index in the first string, then
  in the second), recurse on both sides, and return
  `2 * totalMatched / (len a + len b)`.
* SQLite rows are modelled as Lean structures; the ISO-8601 date strings
  are modelled by their parsed timestamp (`Option ℚ`, `none` standing for
  an unparseable date), which also models the `ORDER BY published_date`
  key.
-/

set_option maxRecDepth 100000

namespace Dradis

abbrev Str := List Char

/-- Python `\w` (ASCII portion): letters, digits and underscore. -/
def isWordChar (c : Char) : Bool := c.isAlphanum || c = '_'

/-- `str.lower()`. -/
def lowerStr (s : Str) : Str := s.map Char.toLower

/-- `str.strip()`: drop whitespace at both ends. -/
def stripStr (s : Str) : Str :=
  ((s.dropWhile Char.isWhitespace).reverse.dropWhile Char.isWhitespace).reverse

/-- Maximal runs of characters satisfying `p` (the accumulator holds the
current run, reversed). -/
def splitRunsAux (p : Char → Bool) : Str → Str → List Str
  | acc, [] => if acc.isEmpty then [] else [acc.reverse]
  | acc, c :: rest =>
    if p c then splitRunsAux p (c :: acc) rest
    else if acc.isEmpty then splitRunsAux p [] rest
    else acc.reverse :: splitRunsAux p [] rest

/-- `re.findall(r'\w+', s)`: maximal runs of word characters. -/
def wordTokens (s : Str) : List Str := splitRunsAux isWordChar [] s

/-- `str.split()`: maximal runs of non-whitespace. -/
def splitWs (s : Str) : List Str := splitRunsAux (fun c => !c.isWhitespace) [] s

/-- Python `needle in hay` (substring containment). -/
def isSubstrOf (needle hay : Str) : Bool :=
  (List.range (hay.length + 1)).any (fun i => needle.isPrefixOf (hay.drop i))

/-! ## difflib.SequenceMatcher ratio (friends_manager.py lines 9, 91, 109) -/

/-- Length of the longest common prefix of two strings. -/
def commonPrefixLen : Str → Str → Nat
  | a :: as_, b :: bs => if a = b then commonPrefixLen as_ bs + 1 else 0
  | _, _ => 0

/-- Length of the longest common run of `a`, `b` starting at positions
`i`, `j`. -/
def runLenAt (a b : Str) (i j : Nat) : Nat :=
  commonPrefixLen (a.drop i) (b.drop j)

/-- `SequenceMatcher.find_longest_match` with empty junk: the longest
matching block `(i, j, k)`; ties are broken by the smallest start in `a`,
then in `b`, exactly as CPython's scan order does. -/
def bestBlock (a b : Str) : Nat × Nat × Nat :=
  (List.range a.length).foldl (fun best i =>
    (List.range b.length).foldl (fun best j =>
      let k := runLenAt a b i j
      if best.2.2 < k then (i, j, k) else best) best) (0, 0, 0)

/-- Total size of the matching blocks of `get_matching_blocks` (fuel is an
upper bound on the recursion depth; each recursive call strictly shrinks
the combined length, so `a.length + b.length + 1` always suffices). -/
def matchTotalAux : Nat → Str → Str → Nat
  | 0, _, _ => 0
  | fuel + 1, a, b =>
    let ijk := bestBlock a b
    let i := ijk.1; let j := ijk.2.1; let k := ijk.2.2
    if k = 0 then 0
    else
      k + matchTotalAux fuel (a.take i) (b.take j)
        + matchTotalAux fuel (a.drop (i + k)) (b.drop (j + k))

def matchTotal (a b : Str) : Nat := matchTotalAux (a.length + b.length + 1) a b

/-- `SequenceMatcher(None, a, b).ratio()`: `2*M/(len a + len b)`, and `1.0`
when both strings are empty (difflib's `_calculate_ratio`). -/
def ratioQ (a b : Str) : ℚ :=
  if a.length + b.length = 0 then 1
  else (2 * (matchTotal a b) : ℚ) / ((a.length + b.length : Nat) : ℚ)

/-! ## FriendsManager.normalize_name (friends_manager.py lines 38-43)

`re.sub(r'\b(Dr|Prof|Professor|PhD|Ph\.D\.)\b\.?', '', name, flags=IGNORECASE)`
followed by whitespace collapse and lowercasing.  The regex is modelled
operationally: scan left to right, and at each position try the
alternatives in order; `\b` is the usual word/non-word transition on the
original string. -/

/-- The alternation, in pattern order, lowercased, paired with whether the
alternative ends in a word character (which decides how the trailing
`\b\.?` behaves). -/
def honorificAlts : List (Str × Bool) :=
  [("dr".toList, true), ("prof".toList, true), ("professor".toList, true),
   ("phd".toList, true), ("ph.d.".toList, false)]

/-- Try one alternative at the current position; returns the number of
characters the whole pattern (alternative plus `\b\.?`) consumes. -/
def tryHonorificAlt (s : Str) (w : Str) (wordEnd : Bool) : Option Nat :=
  if lowerStr (s.take w.length) = w then
    match s.drop w.length with
    | [] => if wordEnd then some w.length else none
    | c :: _ =>
      if wordEnd then
        if isWordChar c then none
        else if c = '.' then some (w.length + 1) else some w.length
      else
        -- the alternative ends in '.', so `\b` needs a word character next
        if isWordChar c then some w.length else none
  else none

/-- Try the full pattern at the current position (`prevWord` records
whether the preceding character of the original string is a word
character, for the leading `\b`). -/
def findHonorificAt (prevWord : Bool) (s : Str) : Option Nat :=
  if prevWord then none
  else honorificAlts.foldl
    (fun acc alt => acc.orElse (fun _ => tryHonorificAlt s alt.1 alt.2)) none

def stripHonorificsAux : Nat → Bool → Str → Str
  | 0, _, s => s
  | _, _, [] => []
  | fuel + 1, prevWord, c :: rest =>
    match findHonorificAt prevWord (c :: rest) with
    | some n =>
      let consumed := (c :: rest).take n
      let pw := match consumed.getLast? with
        | some d => isWordChar d
        | none => prevWord
      stripHonorificsAux fuel pw ((c :: rest).drop n)
    | none => c :: stripHonorificsAux fuel (isWordChar c) rest

def stripHonorifics (s : Str) : Str := stripHonorificsAux s.length false s

/-- `re.sub(r'\s+', ' ', name.strip())`: after stripping the ends, every
maximal whitespace run becomes a single space. -/
def collapseWs (s : Str) : Str := List.intercalate [' '] (splitWs s)

/-- `FriendsManager.normalize_name`. -/
def normalizeName (name : Str) : Str :=
  lowerStr (collapseWs (stripHonorifics name))

/-! ## FriendsManager.extract_name_components (lines 45-75) -/

structure NameParts where
  surname : Str
  initials : List Char
deriving DecidableEq

/-- `FriendsManager.extract_name_components` (the unused `full_name` entry
of the returned dict is dropped). -/
def extractNameComponents (name : Str) : NameParts :=
  let n := normalizeName name
  if n.contains ',' then
    -- "Surname, F.I." (INSPIRE format); split(',', 1)
    let surname := stripStr (n.takeWhile (fun c => c != ','))
    let given := stripStr (n.drop ((n.takeWhile (fun c => c != ',')).length + 1))
    let toks := splitWs (given.map (fun c => if c = '.' then ' ' else c))
    ⟨surname, toks.filterMap List.head?⟩
  else
    -- "Firstname Middlename Surname" (arXiv format)
    let parts := splitWs n
    if 2 ≤ parts.length then
      ⟨(parts.getLast?).getD [], parts.dropLast.filterMap List.head?⟩
    else
      ⟨n, []⟩

/-! ## FriendsManager.name_similarity (lines 77-115) -/

/-- Surname sequence-ratio of two names, as computed at line 91. -/
def surnameRatio (n1 n2 : Str) : ℚ :=
  ratioQ (extractNameComponents n1).surname (extractNameComponents n2).surname

/-- Whether the two initial sets intersect (line 101). -/
def initialsShare (n1 n2 : Str) : Bool :=
  (extractNameComponents n1).initials.any
    (fun c => (extractNameComponents n2).initials.contains c)

/-- `FriendsManager.name_similarity`. -/
def nameSimilarity (n1 n2 : Str) : ℚ :=
  if normalizeName n1 = normalizeName n2 then 1
  else if surnameRatio n1 n2 < 17/20 then 0
  else if (extractNameComponents n1).initials ≠ [] ∧
          (extractNameComponents n2).initials ≠ [] then
    if initialsShare n1 n2 then
      (if 19/20 < surnameRatio n1 n2 then 19/20 else 9/10)
    else 3/10
  else if 9/10 < surnameRatio n1 n2 then
    max (ratioQ (normalizeName n1) (normalizeName n2)) (7/10)
  else ratioQ (normalizeName n1) (normalizeName n2)

/-! ## FriendsManager.detect_friend_authors (lines 117-149)

The roster is modelled as the list of friend names (the only field the
detection logic reads); the threshold is the `name_match_threshold`
configuration value (default `0.85`). -/

structure FriendMatch where
  friendName : Str
  authorName : Str
  similarity : ℚ
deriving DecidableEq

/-- The inner `for author in paper_authors` loop with its `break`: the
first author whose similarity to the friend reaches the threshold. -/
def firstFriendMatch (threshold : ℚ) (friendName : Str) :
    List Str → Option FriendMatch
  | [] => none
  | a :: rest =>
    if threshold ≤ nameSimilarity friendName a then
      some ⟨friendName, a, nameSimilarity friendName a⟩
    else firstFriendMatch threshold friendName rest

/-- `FriendsManager.detect_friend_authors` given the paper's author list
(friends with an empty name are skipped by the `continue` at line 135). -/
def detectFriendAuthors : List Str → ℚ → List Str → List FriendMatch
  | [], _, _ => []
  | f :: fs, threshold, authors =>
    if f = [] then detectFriendAuthors fs threshold authors
    else
      match firstFriendMatch threshold f authors with
      | some m => m :: detectFriendAuthors fs threshold authors
      | none => detectFriendAuthors fs threshold authors

/-- `FriendsManager.get_friend_boost` (lines 151-159): the configured
boost (default 0.3) when any friend author is detected, else 0. -/
def getFriendBoost (friends : List Str) (threshold boost : ℚ)
    (authors : List Str) : ℚ :=
  if detectFriendAuthors friends threshold authors ≠ [] then boost else 0

/-! ## Data model (database.py rows, relevance_engine.py dicts) -/

/-- A row of the `papers` table / the paper dict flowing through the
pipeline.  `published` is the parsed ISO-8601 timestamp in seconds
(`none` for an unparseable date); it also serves as the
`ORDER BY published_date` key. -/
structure Paper where
  id : String
  title : Str
  abstract : Str
  authors : List Str
  categories : List String
  published : Option ℚ
  processed : Bool
deriving DecidableEq

/-- One of the user's previous papers (a prior-work sample). -/
structure PriorWork where
  title : Str
  abstract : Str
deriving DecidableEq

/-- The user profile (the fields the scoring pipeline reads). -/
structure Profile where
  researchKeywords : List Str
  previousPapers : List PriorWork
deriving DecidableEq

/-! ## RelevanceEngine sub-scores (relevance_engine.py lines 19-135) -/

/-- `self.topic_weights` (lines 20-39); keys kept verbatim, weights as
exact rationals. -/
def topicWeights : List (Str × ℚ) :=
  [("string theory".toList, 1), ("quantum field theory".toList, 1),
   ("general relativity".toList, 1), ("cosmology".toList, 1),
   ("black holes".toList, 9/10), ("supersymmetry".toList, 9/10),
   ("extra dimensions".toList, 4/5), ("quantum gravity".toList, 1),
   ("holographic principle".toList, 9/10), ("conformal field theory".toList, 9/10),
   ("gauge theory".toList, 4/5), ("dark matter".toList, 7/10),
   ("dark energy".toList, 7/10), ("inflation".toList, 4/5),
   ("AdS/CFT".toList, 9/10), ("supergravity".toList, 4/5),
   ("M-theory".toList, 9/10), ("braneworld".toList, 7/10)]

/-- `self.topic_weights.get(keyword, 0.5)`. -/
def topicWeightOf (kw : Str) : ℚ :=
  ((topicWeights.find? (fun e => e.1 = kw)).map (fun e => e.2)).getD (1/2)

/-- The `title + ' ' + abstract` text, lowercased. -/
def paperText (p : Paper) : Str := lowerStr (p.title ++ [' '] ++ p.abstract)

/-- `RelevanceEngine.calculate_keyword_similarity` (lines 41-62). -/
def calculateKeywordSimilarity (paper : Paper) (profile : Profile) : ℚ :=
  if profile.researchKeywords = [] then 0
  else
    let userKeywords := profile.researchKeywords.map lowerStr
    let totalWeight := (userKeywords.map topicWeightOf).sum
    let matched := (userKeywords.map (fun kw =>
      if isSubstrOf kw (paperText paper) then topicWeightOf kw else 0)).sum
    if 0 < totalWeight then matched / totalWeight else 0

/-- `category_mapping` (lines 71-78). -/
def categoryMapping : List (String × List Str) :=
  [("hep-th", [("string theory".toList), ("quantum field theory".toList),
               ("supersymmetry".toList), ("gauge theory".toList)]),
   ("gr-qc", [("general relativity".toList), ("quantum gravity".toList),
              ("black holes".toList), ("cosmology".toList)]),
   ("astro-ph.CO", [("cosmology".toList), ("dark matter".toList),
                    ("dark energy".toList), ("inflation".toList)]),
   ("hep-ph", [("particle physics".toList), ("phenomenology".toList)]),
   ("cond-mat", [("condensed matter".toList), ("statistical mechanics".toList)]),
   ("math-ph", [("mathematical physics".toList)])]

/-- `RelevanceEngine.calculate_category_similarity` (lines 64-90):
0.3 per mapped cluster topic that overlaps (substring either direction)
a profile keyword, capped at 1. -/
def calculateCategorySimilarity (paper : Paper) (profile : Profile) : ℚ :=
  let userKeywords := profile.researchKeywords.map lowerStr
  let score := (paper.categories.map (fun c =>
    match categoryMapping.find? (fun e => e.1 = c) with
    | some e =>
      (((e.2.filter (fun topic => userKeywords.any (fun kw =>
          isSubstrOf topic kw || isSubstrOf kw topic))).length : ℚ)) * (3/10)
    | none => 0)).sum
  min score 1

/-- `RelevanceEngine.calculate_author_similarity` (lines 92-96): a
placeholder that always returns 0. -/
def calculateAuthorSimilarity (_paper : Paper) (_profile : Profile) : ℚ := 0

/-- `RelevanceEngine.calculate_citation_potential` (lines 98-123): over
the first five prior papers, the maximum of
`|paper words ∩ prior words| / |prior words|`, capped at 1; 0 when the
profile has no previous papers. -/
def calculateCitationPotential (paper : Paper) (profile : Profile) : ℚ :=
  if profile.previousPapers = [] then 0
  else
    let overlapScore := (profile.previousPapers.take 5).foldl (fun acc up =>
      let paperWords := (wordTokens (paperText paper)).dedup
      let userWords :=
        (wordTokens (lowerStr (up.title ++ [' '] ++ up.abstract))).dedup
      if 0 < userWords.length then
        max acc (((userWords.countP (fun w => paperWords.contains w)) : ℚ)
                  / ((userWords.length : Nat) : ℚ))
      else acc) 0
    min overlapScore 1

/-- Integer day difference `(now - published).days` (Python
`timedelta.days` floors towards minus infinity). -/
def daysOldOf (now pub : ℚ) : ℤ := ((now - pub) / 86400).floor

/-- `RelevanceEngine.calculate_recency_score` (lines 125-135):
`np.exp(-days_old / 30.0)`, and `0.5` when the published date is
unparseable.  `now` is the clock reading `datetime.now` returns. -/
noncomputable def calculateRecencyScore (paper : Paper) (now : ℚ) : ℝ :=
  match paper.published with
  | some pub => Real.exp (-(((daysOldOf now pub : ℤ) : ℝ) / 30))
  | none => 1/2

/-! ## RelevanceEngine.calculate_composite_score (lines 137-192) -/

/-- The `weights` dict (lines 149-156). -/
structure Weights where
  keyword : ℚ
  category : ℚ
  author : ℚ
  citation : ℚ
  recency : ℚ
  aiAnalysis : ℚ
deriving DecidableEq

def baseWeights : Weights := ⟨3/10, 1/5, 1/10, 1/5, 1/10, 1/10⟩

def weightsSum (w : Weights) : ℚ :=
  w.keyword + w.category + w.author + w.citation + w.recency + w.aiAnalysis

/-- The weight adjustment of lines 158-165: when a classifier score is
supplied and is confident (`> 0.8` or `< 0.2`), the `ai_analysis` weight
is raised to 0.3 and every other weight is scaled by 0.875. -/
def weightsFor (gem : Option ℚ) : Weights :=
  match gem with
  | none => baseWeights
  | some s =>
    if 4/5 < s ∨ s < 1/5 then
      { keyword := baseWeights.keyword * (7/8)
        category := baseWeights.category * (7/8)
        author := baseWeights.author * (7/8)
        citation := baseWeights.citation * (7/8)
        recency := baseWeights.recency * (7/8)
        aiAnalysis := 3/10 }
    else baseWeights

/-- The returned outcome dict (lines 181-192).  `flagged` is the
real-number comparison `composite_score >= 0.6`. -/
structure RelevanceOutcome where
  compositeScore : ℝ
  keywordSimilarity : ℚ
  categorySimilarity : ℚ
  authorSimilarity : ℚ
  citationPotential : ℚ
  recencyScore : ℝ
  aiAnalysisScore : ℚ
  friendBoost : ℚ
  isFriendPaper : Bool
  flagged : Prop

/-- `RelevanceEngine.calculate_composite_score`.  Declared inputs:
the paper, the user profile, the friends roster (read through
`FriendsManager`, with the default threshold 0.85 and boost 0.3), and the
optional classifier (`gemini_analysis['relevance_score']`) value.  `now`
is the clock reading that `calculate_recency_score` obtains from
`datetime.now` — an input of the embedding precisely because it is NOT a
declared input of the function. -/
noncomputable def calculateCompositeScore (roster : List Str) (paper : Paper)
    (profile : Profile) (gem : Option ℚ) (now : ℚ) : RelevanceOutcome :=
  let keywordSim := calculateKeywordSimilarity paper profile
  let categorySim := calculateCategorySimilarity paper profile
  let authorSim := calculateAuthorSimilarity paper profile
  let citation := calculateCitationPotential paper profile
  let recency := calculateRecencyScore paper now
  let w := weightsFor gem
  let aiScore : ℚ := gem.getD 0
  let composite : ℝ :=
    (w.keyword * keywordSim : ℚ) + (w.category * categorySim : ℚ)
    + (w.author * authorSim : ℚ) + (w.citation * citation : ℚ)
    + w.recency * recency + (w.aiAnalysis * aiScore : ℚ)
  let friendBoost := getFriendBoost roster (17/20) (3/10) paper.authors
  let score := min (composite + friendBoost) 1
  { compositeScore := score
    keywordSimilarity := keywordSim
    categorySimilarity := categorySim
    authorSimilarity := authorSim
    citationPotential := citation
    recencyScore := recency
    aiAnalysisScore := aiScore
    friendBoost := friendBoost
    isFriendPaper := decide (0 < friendBoost)
    flagged := (3/5 : ℝ) ≤ score }

/-! ## FastPaperAnalyzer.quick_filter (fast_analyzer.py lines 36-72) -/

/-- The built-in `physics_keywords` list (lines 46-50). -/
def physicsKeywords : List Str :=
  [("black hole".toList), ("cosmology".toList), ("gravity".toList),
   ("relativity".toList), ("spacetime".toList), ("quantum".toList),
   ("field theory".toList), ("gauge theory".toList), ("string theory".toList),
   ("dark matter".toList), ("dark energy".toList), ("inflation".toList),
   ("universe".toList)]

/-- `FastPaperAnalyzer.quick_filter`: with no user keywords every paper
passes; otherwise the lowercased `title + ' ' + abstract` must contain a
physics keyword or a (lowercased) user keyword. -/
def quickFilter (paper : Paper) (profile : Profile) : Bool :=
  if profile.researchKeywords = [] then true
  else
    let text := paperText paper
    let hasPhysics := physicsKeywords.any (fun kw => isSubstrOf kw text)
    let hasUserRelevance := profile.researchKeywords.any
      (fun kw => isSubstrOf (lowerStr kw) text)
    hasPhysics || hasUserRelevance

/-! ## FastPaperAnalyzer.analyze_single_paper (lines 160-243)

The external classifier interaction is modelled by an oracle
`Paper → ClassifierResult`: a well-formed JSON object response (whose
fields may be missing — `setdefault` fills them), a malformed response
(`json.JSONDecodeError` — the `_parse_fallback` path; the regex capture
of `"relevance_score": <float>` is abstracted to the extracted value), or
an exception escaping the classifier call (network failure etc.), which
the outer `except` of the worker converts to a failure record.  The
rate-limiting sleep of lines 171-179 only delays the call; its timing
behaviour is modelled separately by `nextDispatch` below. -/

inductive ClassifierResult where
  | json (score : Option ℚ) (concepts : Option (List Str))
         (flagged : Option Bool) (reasoning : Option Str)
  | malformed (extractedScore : Option ℚ)
  | failure (msg : Str)

/-- The analysis dict every worker returns (always carries these four
keys). -/
structure Analysis where
  relevanceScore : ℚ
  keyConcepts : List Str
  flagged : Bool
  reasoning : Str
deriving DecidableEq

/-- Lines 184-189: the record returned for a pre-filtered paper. -/
def prefilteredRecord : Analysis :=
  ⟨0, [], false, ("Pre-filtered as irrelevant".toList)⟩

/-- Lines 238-243: the failure record built by the worker-boundary
`except` handler. -/
def failureRecord (msg : Str) : Analysis :=
  ⟨0, [], false, ("Analysis failed: ".toList) ++ msg⟩

/-- Lines 211-216: `json.loads` succeeded; `setdefault` the four fields
(the `flagged` default reads the already-defaulted relevance score). -/
def setDefaultAnalysis (score : Option ℚ) (concepts : Option (List Str))
    (flagged : Option Bool) (reasoning : Option Str) : Analysis :=
  let s := score.getD 0
  { relevanceScore := s
    keyConcepts := concepts.getD []
    flagged := flagged.getD (decide (7/10 ≤ s))
    reasoning := reasoning.getD ("Analysis completed".toList) }

/-- `FastPaperAnalyzer._parse_fallback` (lines 245-262), given the score
the regex extracted (if any). -/
def parseFallback (extracted : Option ℚ) : Analysis :=
  let s := extracted.getD 0
  ⟨s, [], decide (7/10 ≤ s), ("Parsed from malformed response".toList)⟩

/-- `FastPaperAnalyzer.analyze_single_paper`.  Returns the analysis dict
together with whether the external classifier was invoked.  The function
is total: its own `except` converts any per-item failure into
`failureRecord`, so the worker always returns a (non-empty, hence truthy)
dict. -/
def analyzeSinglePaper (env : Paper → ClassifierResult) (profile : Profile)
    (p : Paper) : Analysis × Bool :=
  if quickFilter p profile then
    match env p with
    | ClassifierResult.json s c f r => (setDefaultAnalysis s c f r, true)
    | ClassifierResult.malformed ex => (parseFallback ex, true)
    | ClassifierResult.failure msg => (failureRecord msg, true)
  else (prefilteredRecord, false)

/-! ## FastPaperAnalyzer.analyze_paper_batch (lines 93-158)

The thread pool completes futures in an arbitrary order: `order` is the
completion order, any permutation of the submitted batch.  For each
completed future the pair `(paper['id'], analysis)` is appended; the
`if analysis:` truthiness test always passes because the worker always
returns a dict with four keys, and `future.result()` never raises because
`analyze_single_paper` catches every exception itself, so the
`except`/`continue` arm of the collection loop is dead code. -/

def analyzePaperBatch (env : Paper → ClassifierResult) (profile : Profile)
    (order : List Paper) : List (String × Analysis) :=
  order.map (fun p => (p.id, (analyzeSinglePaper env profile p).1))

/-! ## DradisDB (database.py lines 106-141) -/

/-- `DradisDB.get_unprocessed_papers`:
`SELECT * FROM papers WHERE processed = FALSE ORDER BY published_date
DESC`.  The descending text order on ISO dates is modelled by sorting on
the parsed timestamp. -/
def getUnprocessedPapers (store : List Paper) : List Paper :=
  (store.filter (fun p => !p.processed)).insertionSort
    (fun p q => (q.published.getD 0) ≤ (p.published.getD 0))

/-- The whole database state: the `papers` table and the
`paper_analysis` table. -/
structure DBState where
  papers : List Paper
  analyses : List (String × Analysis)

/-- `DradisDB.save_paper_analysis` (lines 126-141): `INSERT OR REPLACE`
keyed on `paper_id`. -/
def savePaperAnalysis (s : DBState) (id_ : String) (a : Analysis) : DBState :=
  { s with analyses := (id_, a) :: s.analyses.filter (fun e => e.1 ≠ id_) }

/-- `DradisDB.mark_paper_processed` (lines 117-124):
`UPDATE papers SET processed = TRUE WHERE id = ?`. -/
def markPaperProcessed (s : DBState) (id_ : String) : DBState :=
  { s with papers := s.papers.map (fun p =>
      if p.id = id_ then { p with processed := true } else p) }

def hasOutcomeFor (s : DBState) (id_ : String) : Bool :=
  s.analyses.any (fun e => e.1 = id_)

def isMarkedProcessed (s : DBState) (id_ : String) : Bool :=
  s.papers.any (fun p => p.id = id_ && p.processed)

/-! ## The coordinator's persistence loop
(fast_analyzer.py lines 311-325)

Each of `save_paper_analysis` and `mark_paper_processed` opens its own
sqlite connection and commits independently; either can raise.  The
failure environment records which ids each call fails for.  The `try`
body runs `save` then `mark`: an exception in `save` skips `mark`; an
exception in `mark` leaves the already-committed save in place. -/

structure PersistEnv where
  saveFails : String → Bool
  markFails : String → Bool

def persistOne (env : PersistEnv) (s : DBState) (r : String × Analysis) :
    DBState :=
  if env.saveFails r.1 then s
  else
    let s1 := savePaperAnalysis s r.1 r.2
    if env.markFails r.1 then s1 else markPaperProcessed s1 r.1

def persistResults (env : PersistEnv) (s : DBState)
    (results : List (String × Analysis)) : DBState :=
  results.foldl (persistOne env) s

/-! ## FastPaperAnalyzer.fast_analyze_pending_papers (lines 264-363)

The run pulls `get_unprocessed_papers()` once and slices it into batches
of `batch_size` (`papers[i:i+batch_size]` for `i in range(0, len(papers),
batch_size)`); concatenating the batches gives back the pending list, so
the multiset of papers submitted to the worker pool over the run is
exactly the pending list. -/

def chunksAux {α : Type} : Nat → Nat → List α → List (List α)
  | 0, _, _ => []
  | _, _, [] => []
  | fuel + 1, bs, l => l.take bs :: chunksAux fuel bs (l.drop bs)

def chunks {α : Type} (bs : Nat) (l : List α) : List (List α) :=
  chunksAux l.length bs l

/-- The papers submitted to the worker pool (hence to the external
classifier pipeline) over one run. -/
def runSubmitted (store : List Paper) (bs : Nat) : List Paper :=
  (chunks bs (getUnprocessedPapers store)).flatten

/-- The run's requested work: `len(papers)` for the pending list
(`RunSummary.requested`). -/
def runRequested (store : List Paper) : Nat :=
  (getUnprocessedPapers store).length

/-! ## The rate limiter (fast_analyzer.py lines 30-32 and 171-179)

`self.rate_limiter = threading.Semaphore(15)` bounds the number of
concurrently in-flight classifier calls, and the `request_lock` section
enforces a minimum spacing between dispatch times: a worker arriving at
time `a` with cursor `last` sleeps `0.2 - (a - last)` seconds when that
is positive, then dispatches and advances the cursor.  The only
constraint on dispatch timestamps is therefore the 0.2-second spacing. -/

def nextDispatch (last arrival : ℚ) : ℚ :=
  if arrival - last < 1/5 then last + 1/5 else arrival

def dispatchTimesAux (last : ℚ) : List ℚ → List ℚ
  | [] => []
  | a :: rest =>
    nextDispatch last a :: dispatchTimesAux (nextDispatch last a) rest

/-- Dispatch timestamps produced for a list of lock-acquisition times,
starting from the initial cursor `self.last_request_time = 0`. -/
def dispatchTimes (arrivals : List ℚ) : List ℚ := dispatchTimesAux 0 arrivals

/-- Number of dispatches inside the window `[start, start + width)`. -/
def windowCount (ts : List ℚ) (start width : ℚ) : Nat :=
  ts.countP (fun t => decide (start ≤ t) && decide (t < start + width))

/-- Every pair of consecutive timestamps is at least `gap` apart. -/
def gapsAtLeast (gap : ℚ) : List ℚ → Bool
  | a :: b :: rest => decide (a + gap ≤ b) && gapsAtLeast gap (b :: rest)
  | _ => true

/-! # Theorems -/

/-! ## Claim C4 (corrected) -/

/-- Claim C4, counterexample: with the confident classifier score 0.9 the
re-weighted weights of `calculate_composite_score` sum to 87/80 = 1.0875,
not to 1 as the claim states. -/
theorem C4_counterexample :
    ((4/5 : ℚ) < 9/10) ∧ weightsSum (weightsFor (some (9/10))) ≠ 1 := by
  with_unfolding_all decide

/-- Claim C4 as amended: for every supplied classifier score `s` with
`s > 0.8` or `s < 0.2`, the scorer raises the classifier weight to 0.30
and scales every other weight (including the author weight) by 0.875, and
the resulting weights sum to 87/80 = 1.0875 — not to 1 — before the
identity boost is applied. -/
theorem C4_reweighting (s : ℚ) (h : 4/5 < s ∨ s < 1/5) :
    weightsFor (some s) =
      { keyword := (3/10) * (7/8), category := (1/5) * (7/8)
        author := (1/10) * (7/8), citation := (1/5) * (7/8)
        recency := (1/10) * (7/8), aiAnalysis := 3/10 }
    ∧ weightsSum (weightsFor (some s)) = 87/80 := by
  simp only [weightsFor, if_pos h]
  refine ⟨rfl, ?_⟩
  with_unfolding_all decide

/-- Witness for `C4_reweighting` at `s = 0.9`. -/
theorem C4_reweighting_witness :
    weightsSum (weightsFor (some (9/10))) = 87/80 :=
  (C4_reweighting (9/10) (Or.inl (by norm_num))).2

/-! ## Claim C5 (confirmed) -/

/-- Claim C5: `name_similarity` follows the specified case analysis —
equal normalized names give 1.0; a surname sequence-ratio below 0.85
gives 0.0; when both names have initials, intersecting initial sets give
0.95 (surname ratio above 0.95) or 0.90, and disjoint initial sets give
0.3 — and on the three quoted instances:
`similarity("Smith, J.", "Smith, J.") = 1.0`,
`similarity("Smith, J.", "Jones, J.") < 0.85`, and
`similarity("Lasenby, A.N.", "Anthony N. Lasenby") ≥ 0.9`. -/
theorem C5_name_similarity_cases :
    (∀ n1 n2 : Str,
      (normalizeName n1 = normalizeName n2 → nameSimilarity n1 n2 = 1)
      ∧ (normalizeName n1 ≠ normalizeName n2 →
          surnameRatio n1 n2 < 17/20 → nameSimilarity n1 n2 = 0)
      ∧ (normalizeName n1 ≠ normalizeName n2 →
          ¬ surnameRatio n1 n2 < 17/20 →
          (extractNameComponents n1).initials ≠ [] →
          (extractNameComponents n2).initials ≠ [] →
          (initialsShare n1 n2 = true →
            nameSimilarity n1 n2 =
              (if 19/20 < surnameRatio n1 n2 then 19/20 else 9/10))
          ∧ (initialsShare n1 n2 = false → nameSimilarity n1 n2 = 3/10)))
    ∧ nameSimilarity ("Smith, J.".toList) ("Smith, J.".toList) = 1
    ∧ nameSimilarity ("Smith, J.".toList) ("Jones, J.".toList) < 17/20
    ∧ 9/10 ≤ nameSimilarity ("Lasenby, A.N.".toList) ("Anthony N. Lasenby".toList) := by
  refine ⟨fun n1 n2 => ⟨?_, ?_, ?_⟩, by with_unfolding_all decide,
    by with_unfolding_all decide, by with_unfolding_all decide⟩
  · intro h
    simp only [nameSimilarity, if_pos h]
  · intro h1 h2
    simp only [nameSimilarity, if_neg h1, if_pos h2]
  · intro h1 h2 h3 h4
    constructor
    · intro hs
      simp only [nameSimilarity, if_neg h1, if_neg h2, if_pos (And.intro h3 h4), hs,
        if_true]
    · intro hs
      simp only [nameSimilarity, if_neg h1, if_neg h2, if_pos (And.intro h3 h4), hs,
        Bool.false_eq_true, if_false]

/-- Witness for `C5_name_similarity_cases`: the surname-gate case applied
to the concrete pair ("Smith, J.", "Jones, J."). -/
theorem C5_name_similarity_witness :
    nameSimilarity ("Smith, J.".toList) ("Jones, J.".toList) = 0 :=
  ((C5_name_similarity_cases.1 ("Smith, J.".toList) ("Jones, J.".toList)).2.1
    (by with_unfolding_all decide) (by with_unfolding_all decide))

/-! ## Claim C6 (corrected) -/

/-- The inner author loop phrased with `List.find?`: the first author
whose similarity reaches the threshold. -/
theorem firstFriendMatch_eq_find (thr : ℚ) (f : Str) (authors : List Str) :
    firstFriendMatch thr f authors
      = (authors.find? (fun a => decide (thr ≤ nameSimilarity f a))).map
          (fun a => (⟨f, a, nameSimilarity f a⟩ : FriendMatch)) := by
  induction authors with
  | nil => rfl
  | cons a rest ih =>
    by_cases h : thr ≤ nameSimilarity f a
    · simp [firstFriendMatch, List.find?_cons, h]
    · simp [firstFriendMatch, List.find?_cons, h, ih]

/-- Every detected match names a friend of the roster. -/
theorem mem_detect_friendName {m : FriendMatch} :
    ∀ {friends : List Str} {thr : ℚ} {authors : List Str},
      m ∈ detectFriendAuthors friends thr authors → m.friendName ∈ friends := by
  intro friends
  induction friends with
  | nil => intro thr authors h; simp [detectFriendAuthors] at h
  | cons g gs ih =>
    intro thr authors h
    by_cases hg : g = []
    · simp only [detectFriendAuthors, if_pos hg] at h
      exact List.mem_cons_of_mem _ (ih h)
    · simp only [detectFriendAuthors, if_neg hg] at h
      cases hfm : firstFriendMatch thr g authors with
      | none => rw [hfm] at h; exact List.mem_cons_of_mem _ (ih h)
      | some m0 =>
        rw [hfm] at h
        rcases List.mem_cons.mp h with h1 | h2
        · have : m0.friendName = g := by
            rw [firstFriendMatch_eq_find] at hfm
            cases hfind : authors.find? (fun a => decide (thr ≤ nameSimilarity g a)) with
            | none => rw [hfind] at hfm; simp at hfm
            | some a => rw [hfind] at hfm; simp at hfm; rw [← hfm]
          rw [h1]; rw [this]; exact List.mem_cons_self g gs
        · exact List.mem_cons_of_mem _ (ih h2)

/-- A friend outside the roster never appears among the matches. -/
theorem detect_countP_not_mem (friends : List Str) (thr : ℚ)
    (authors : List Str) (f : Str) (hf : f ∉ friends) :
    (detectFriendAuthors friends thr authors).countP
      (fun m => decide (m.friendName = f)) = 0 := by
  rw [List.countP_eq_zero]
  intro m hm
  simp only [decide_eq_true_eq]
  intro heq
  exact hf (heq ▸ mem_detect_friendName hm)

/-- At most one match per roster entry (for a duplicate-free roster). -/
theorem detect_countP_le_one (friends : List Str) (thr : ℚ)
    (authors : List Str) (f : Str) (hnd : friends.Nodup) :
    (detectFriendAuthors friends thr authors).countP
      (fun m => decide (m.friendName = f)) ≤ 1 := by
  induction friends with
  | nil => simp [detectFriendAuthors]
  | cons g gs ih =>
    have hgs : gs.Nodup := (List.nodup_cons.mp hnd).2
    have hgnot : g ∉ gs := (List.nodup_cons.mp hnd).1
    by_cases hg : g = []
    · simp only [detectFriendAuthors, if_pos hg]; exact ih hgs
    · simp only [detectFriendAuthors, if_neg hg]
      cases hfm : firstFriendMatch thr g authors with
      | none => exact ih hgs
      | some m0 =>
        have hname : m0.friendName = g := by
          rw [firstFriendMatch_eq_find] at hfm
          cases hfind : authors.find? (fun a => decide (thr ≤ nameSimilarity g a)) with
          | none => rw [hfind] at hfm; simp at hfm
          | some a => rw [hfind] at hfm; simp at hfm; rw [← hfm]
        rw [List.countP_cons]
        by_cases hgf : g = f
        · have hz : (detectFriendAuthors gs thr authors).countP
              (fun m => decide (m.friendName = f)) = 0 :=
            detect_countP_not_mem gs thr authors f (hgf ▸ hgnot)
          rw [hz]
          split <;> omega
        · have : (decide (m0.friendName = f)) = false := by
            simp [hname, hgf]
          rw [this]
          simpa using ih hgs


/-- Claim C6, counterexample: the claim as stated fails for a roster
entry with an empty display name — the (empty) first author has
similarity 1 ≥ 0.85 to it, yet `detect_friend_authors` skips the entry
and returns no match. -/
theorem C6_counterexample :
    (17/20 : ℚ) ≤ nameSimilarity [] []
    ∧ detectFriendAuthors [[]] (17/20) [[]] = [] := by
  with_unfolding_all decide

/-- Claim C6 as amended: roster entries with an empty name are skipped
and never produce a match; every other entry produces at most one match
per call, namely for the first author in list order whose similarity
reaches the threshold (`List.find?`), and on the quoted instance — roster
containing "Anthony Lasenby", authors ["John Smith", "Anthony Lasenby",
"Jane Doe"] — exactly one match is returned, for Lasenby, with
similarity 1 ≥ 0.85. -/
theorem C6_find_matches (friends : List Str) (thr : ℚ) (authors : List Str) :
    (detectFriendAuthors friends thr authors
      = friends.flatMap (fun f =>
          if f = [] then []
          else ((authors.find? (fun a => decide (thr ≤ nameSimilarity f a))).map
                  (fun a => (⟨f, a, nameSimilarity f a⟩ : FriendMatch))).toList))
    ∧ (∀ f : Str, friends.Nodup →
        (detectFriendAuthors friends thr authors).countP
          (fun m => decide (m.friendName = f)) ≤ 1)
    ∧ detectFriendAuthors [("Anthony Lasenby".toList)] (17/20)
        [("John Smith".toList), ("Anthony Lasenby".toList), ("Jane Doe".toList)]
      = [⟨("Anthony Lasenby".toList), ("Anthony Lasenby".toList), 1⟩] := by
  refine ⟨?_, fun f hnd => detect_countP_le_one friends thr authors f hnd, ?_⟩
  · induction friends with
    | nil => rfl
    | cons g gs ih =>
      by_cases hg : g = []
      · simp only [detectFriendAuthors, if_pos hg, List.flatMap_cons, hg, if_true]
        simpa using ih
      · simp only [detectFriendAuthors, if_neg hg, List.flatMap_cons, if_neg hg,
          firstFriendMatch_eq_find]
        cases hfind : authors.find? (fun a => decide (thr ≤ nameSimilarity g a)) with
        | none => simpa using ih
        | some a => simp only [Option.map_some, Option.toList_some,
            List.singleton_append, Option.map]; exact congrArg _ ih
  · with_unfolding_all decide

/-- Witness for `C6_find_matches`: the at-most-one-match part discharged
on the concrete Lasenby roster. -/
theorem C6_find_matches_witness :
    (detectFriendAuthors [("Anthony Lasenby".toList)] (17/20)
        [("John Smith".toList), ("Anthony Lasenby".toList), ("Jane Doe".toList)]).countP
      (fun m => decide (m.friendName = ("Anthony Lasenby".toList))) ≤ 1 :=
  (C6_find_matches [("Anthony Lasenby".toList)] (17/20)
      [("John Smith".toList), ("Anthony Lasenby".toList), ("Jane Doe".toList)]).2.1
    ("Anthony Lasenby".toList) (List.nodup_singleton _)

/-! ## Claim C9 (corrected) -/

/-- The citation-potential formula phrased over a given sample list (used
to compare the code against the claim, which quantifies over ALL of the
profile's prior-work samples): maximum token-overlap ratio across the
samples, capped at 1. -/
def citationOverSamples (paper : Paper) (samples : List PriorWork) : ℚ :=
  min ((samples.foldl (fun acc up =>
    let paperWords := (wordTokens (paperText paper)).dedup
    let userWords :=
      (wordTokens (lowerStr (up.title ++ [' '] ++ up.abstract))).dedup
    if 0 < userWords.length then
      max acc (((userWords.countP (fun w => paperWords.contains w)) : ℚ)
                / ((userWords.length : Nat) : ℚ))
    else acc) 0)) 1

def c9Paper : Paper :=
  { id := "c9", title := ("alpha".toList), abstract := [], authors := []
    categories := [], published := none, processed := false }

def c9Samples : List PriorWork :=
  [⟨("zzz".toList), []⟩, ⟨("zzz".toList), []⟩, ⟨("zzz".toList), []⟩,
   ⟨("zzz".toList), []⟩, ⟨("zzz".toList), []⟩, ⟨("alpha".toList), []⟩]

/-- Claim C9, counterexample: with six prior-work samples of which only
the sixth overlaps the document, the code returns 0.0 (it only scans the
first five samples), while the claimed maximum over all samples is 1;
moreover the value 0.0 is attained although the sample list is
non-empty, refuting the "equals 0.0 exactly when no samples" part. -/
theorem C9_counterexample :
    calculateCitationPotential c9Paper ⟨[], c9Samples⟩ = 0
    ∧ citationOverSamples c9Paper c9Samples = 1
    ∧ calculateCitationPotential c9Paper ⟨[], c9Samples⟩
        ≠ citationOverSamples c9Paper c9Samples
    ∧ c9Samples ≠ [] := by
  with_unfolding_all decide

/-- Claim C9 as amended: the citation-potential sub-score equals the
maximum token-overlap ratio over the FIRST FIVE prior-work samples,
capped at 1.0, and it equals 0.0 whenever the profile has no prior-work
samples (though it can also be 0.0 with samples present). -/
theorem C9_citation_first_five (paper : Paper) (profile : Profile) :
    calculateCitationPotential paper profile
      = citationOverSamples paper (profile.previousPapers.take 5)
    ∧ (profile.previousPapers = [] →
        calculateCitationPotential paper profile = 0) := by
  constructor
  · by_cases h : profile.previousPapers = []
    · simp only [calculateCitationPotential, if_pos h, h, List.take_nil,
        citationOverSamples, List.foldl_nil]
      norm_num
    · simp only [calculateCitationPotential, if_neg h, citationOverSamples]
  · intro h
    simp only [calculateCitationPotential, if_pos h]

/-- Witness for `C9_citation_first_five`: the empty-profile case. -/
theorem C9_citation_first_five_witness :
    calculateCitationPotential c9Paper ⟨[], []⟩ = 0 :=
  (C9_citation_first_five c9Paper ⟨[], []⟩).2 rfl

/-! ## Claim C10 (confirmed) -/

/-- Claim C10: with a non-empty user keyword set, a paper whose lowercased
title-plus-abstract contains none of the built-in physics keywords and
none of the user keywords is pre-filtered: the per-item analysis returns
relevance score 0.0, empty key concepts and flagged false, and the
external classifier is never invoked (the returned flag is `false` and
the result does not depend on the classifier oracle at all). -/
theorem C10_prefilter_skips_classifier (p : Paper) (profile : Profile)
    (env : Paper → ClassifierResult)
    (hkw : profile.researchKeywords ≠ [])
    (hphys : ∀ kw ∈ physicsKeywords, isSubstrOf kw (paperText p) = false)
    (huser : ∀ kw ∈ profile.researchKeywords,
        isSubstrOf (lowerStr kw) (paperText p) = false) :
    analyzeSinglePaper env profile p = (prefilteredRecord, false)
    ∧ prefilteredRecord.relevanceScore = 0
    ∧ prefilteredRecord.keyConcepts = []
    ∧ prefilteredRecord.flagged = false := by
  have hqf : quickFilter p profile = false := by
    simp only [quickFilter, if_neg hkw]
    rw [Bool.or_eq_false_iff]
    constructor
    · rw [List.any_eq_false]
      intro kw hkwmem
      simp [hphys kw hkwmem]
    · rw [List.any_eq_false]
      intro kw hkwmem
      simp [huser kw hkwmem]
  refine ⟨?_, rfl, rfl, rfl⟩
  simp [analyzeSinglePaper, hqf]

def c10Paper : Paper :=
  { id := "c10", title := ("hello".toList), abstract := ("world".toList)
    authors := [], categories := [], published := none, processed := false }

/-- Witness for `C10_prefilter_skips_classifier` on a concrete paper,
profile and classifier oracle. -/
theorem C10_prefilter_witness :
    analyzeSinglePaper (fun _ => ClassifierResult.malformed none)
        ⟨[("qcd".toList)], []⟩ c10Paper = (prefilteredRecord, false) :=
  (C10_prefilter_skips_classifier c10Paper ⟨[("qcd".toList)], []⟩
    (fun _ => ClassifierResult.malformed none)
    (by with_unfolding_all decide)
    (by with_unfolding_all decide)
    (by with_unfolding_all decide)).1

/-! ## Claim C1 (confirmed) -/

/-- Claim C1: for every batch and every completion order of its futures,
the collected results report every submitted paper exactly once (their
first components are a permutation of the batch's ids); each paper's
entry is exactly the worker's result for that paper alone — so siblings
are unperturbed — and a per-item classifier failure is converted at the
worker boundary to a failure record under that paper's id instead of
dropping the item or aborting the batch. -/
theorem C1_batch_reports_each_item (papers order : List Paper)
    (env : Paper → ClassifierResult) (profile : Profile)
    (hperm : order.Perm papers) :
    ((analyzePaperBatch env profile order).map Prod.fst).Perm
      (papers.map Paper.id)
    ∧ (∀ p ∈ papers,
        (p.id, (analyzeSinglePaper env profile p).1)
          ∈ analyzePaperBatch env profile order)
    ∧ (∀ p ∈ papers, ∀ msg : Str, env p = ClassifierResult.failure msg →
        quickFilter p profile = true →
        (p.id, failureRecord msg) ∈ analyzePaperBatch env profile order) := by
  refine ⟨?_, ?_, ?_⟩
  · have h : (analyzePaperBatch env profile order).map Prod.fst
        = order.map Paper.id := by
      simp [analyzePaperBatch, List.map_map, Function.comp]
    rw [h]
    exact hperm.map _
  · intro p hp
    exact List.mem_map.mpr ⟨p, hperm.mem_iff.mpr hp, rfl⟩
  · intro p hp msg henv hqf
    have hres : (analyzeSinglePaper env profile p).1 = failureRecord msg := by
      simp [analyzeSinglePaper, hqf, henv]
    rw [← hres]
    exact List.mem_map.mpr ⟨p, hperm.mem_iff.mpr hp, rfl⟩

def w1PaperA : Paper :=
  { id := "a", title := ("black hole".toList), abstract := [], authors := []
    categories := [], published := none, processed := false }

def w1PaperB : Paper :=
  { id := "b", title := ("cosmology".toList), abstract := [], authors := []
    categories := [], published := none, processed := false }

def w1Env : Paper → ClassifierResult := fun p =>
  if p.id = "a" then ClassifierResult.failure ("boom".toList)
  else ClassifierResult.json (some (1/2)) none none none

/-- Witness for `C1_batch_reports_each_item`: a two-paper batch collected
in swapped completion order, where the classifier fails on paper "a" —
its failure record still appears under id "a". -/
theorem C1_batch_witness :
    (("a" : String), failureRecord ("boom".toList))
      ∈ analyzePaperBatch w1Env ⟨[], []⟩ [w1PaperB, w1PaperA] :=
  (C1_batch_reports_each_item [w1PaperA, w1PaperB] [w1PaperB, w1PaperA]
      w1Env ⟨[], []⟩ (List.Perm.swap w1PaperA w1PaperB [])).2.2
    w1PaperA (List.mem_cons_self _ _) ("boom".toList)
    (by with_unfolding_all rfl) (by with_unfolding_all decide)

/-! ## Claim C2 (confirmed) -/

theorem chunksAux_flatten {α : Type} :
    ∀ (fuel bs : Nat) (l : List α), l.length ≤ fuel → 1 ≤ bs →
      (chunksAux fuel bs l).flatten = l := by
  intro fuel
  induction fuel with
  | zero =>
    intro bs l hl _
    cases l with
    | nil => rfl
    | cons a rest => simp at hl
  | succ n ih =>
    intro bs l hl hbs
    cases l with
    | nil => rfl
    | cons a rest =>
      simp only [chunksAux, List.flatten_cons]
      rw [ih bs ((a :: rest).drop bs) ?_ hbs]
      · exact List.take_append_drop bs (a :: rest)
      · rw [List.length_drop]
        simp only [List.length_cons] at hl ⊢
        omega

theorem length_filter_not_add_countP {α : Type} (p : α → Bool) (l : List α) :
    (l.filter (fun x => !p x)).length + l.countP p = l.length := by
  induction l with
  | nil => rfl
  | cons a rest ih =>
    rw [List.filter_cons, List.countP_cons]
    cases h : p a <;> simp [h] <;> omega

/-- Claim C2: the run's pending set is exactly the `processed = FALSE`
rows, so an already-processed paper `X` is never submitted to the
classifier pipeline in that run, and the run's requested work counts
only the unprocessed rows (`requested + #processed = N`). -/
theorem C2_processed_not_resubmitted (store : List Paper) (bs : Nat)
    (X : Paper) (hbs : 1 ≤ bs) (_hmem : X ∈ store)
    (hproc : X.processed = true) :
    (∀ p ∈ getUnprocessedPapers store, p.processed = false)
    ∧ X ∉ runSubmitted store bs
    ∧ runRequested store + store.countP (fun p => p.processed)
        = store.length := by
  have hperm : (getUnprocessedPapers store).Perm
      (store.filter (fun p => !p.processed)) :=
    List.perm_insertionSort _ _
  refine ⟨?_, ?_, ?_⟩
  · intro p hp
    have hp' : p ∈ store.filter (fun p => !p.processed) :=
      hperm.mem_iff.mp hp
    have := (List.mem_filter.mp hp').2
    simpa using this
  · intro hX
    have hsub : runSubmitted store bs = getUnprocessedPapers store := by
      unfold runSubmitted chunks
      exact chunksAux_flatten _ bs _ (le_refl _) hbs
    rw [hsub] at hX
    have hp' : X ∈ store.filter (fun p => !p.processed) :=
      hperm.mem_iff.mp hX
    have := (List.mem_filter.mp hp').2
    rw [hproc] at this
    simp at this
  · have hlen : runRequested store
        = (store.filter (fun p => !p.processed)).length :=
      hperm.length_eq
    rw [hlen]
    exact length_filter_not_add_countP _ store

def w2X : Paper :=
  { id := "x", title := [], abstract := [], authors := [], categories := []
    published := none, processed := true }

def w2Y : Paper :=
  { id := "y", title := [], abstract := [], authors := [], categories := []
    published := none, processed := false }

/-- Witness for `C2_processed_not_resubmitted`: a two-row store where only
`x` is processed — it is not submitted and the requested count is
`2 - 1 = 1`. -/
theorem C2_processed_witness :
    w2X ∉ runSubmitted [w2X, w2Y] 20
    ∧ runRequested [w2X, w2Y] + ([w2X, w2Y].countP (fun p => p.processed))
        = 2 :=
  ⟨(C2_processed_not_resubmitted [w2X, w2Y] 20 w2X (by omega)
      (List.mem_cons_self _ _) rfl).2.1,
   (C2_processed_not_resubmitted [w2X, w2Y] 20 w2X (by omega)
      (List.mem_cons_self _ _) rfl).2.2⟩

/-! ## Claim C7 (corrected) -/

theorem hasOutcome_save_self (s : DBState) (i : String) (a : Analysis) :
    hasOutcomeFor (savePaperAnalysis s i a) i = true := by
  simp [hasOutcomeFor, savePaperAnalysis]

theorem hasOutcome_save_mono {s : DBState} {j : String}
    (h : hasOutcomeFor s j = true) (i : String) (a : Analysis) :
    hasOutcomeFor (savePaperAnalysis s i a) j = true := by
  by_cases hij : i = j
  · subst hij; exact hasOutcome_save_self s i a
  · simp only [hasOutcomeFor, savePaperAnalysis, List.any_cons,
      Bool.or_eq_true] at h ⊢
    rcases List.any_eq_true.mp h with ⟨e, he, heq⟩
    right
    apply List.any_eq_true.mpr
    have hej : e.1 = j := by simpa using heq
    refine ⟨e, List.mem_filter.mpr ⟨he, ?_⟩, heq⟩
    simp [hej, Ne.symm hij]

theorem marked_save (s : DBState) (i j : String) (a : Analysis) :
    isMarkedProcessed (savePaperAnalysis s i a) j = isMarkedProcessed s j :=
  rfl

theorem outcome_mark (s : DBState) (i j : String) :
    hasOutcomeFor (markPaperProcessed s i) j = hasOutcomeFor s j :=
  rfl

theorem marked_mark_mono {s : DBState} {j : String}
    (h : isMarkedProcessed s j = true) (i : String) :
    isMarkedProcessed (markPaperProcessed s i) j = true := by
  simp only [isMarkedProcessed, markPaperProcessed, List.any_eq_true] at h ⊢
  rcases h with ⟨p, hp, hcond⟩
  have hsplit : p.id = j ∧ p.processed = true := by simpa using hcond
  refine ⟨if p.id = i then { p with processed := true } else p,
    List.mem_map.mpr ⟨p, hp, rfl⟩, ?_⟩
  by_cases hpi : p.id = i
  · rw [if_pos hpi]
    simp only [Bool.and_eq_true, decide_eq_true_eq]
    exact ⟨hsplit.1, trivial⟩
  · rw [if_neg hpi]
    simp only [Bool.and_eq_true, decide_eq_true_eq]
    exact ⟨hsplit.1, hsplit.2⟩

theorem marked_mark_ne {s : DBState} {i j : String} (hij : ¬ i = j) :
    isMarkedProcessed (markPaperProcessed s i) j = isMarkedProcessed s j := by
  simp only [isMarkedProcessed, markPaperProcessed]
  induction s.papers with
  | nil => rfl
  | cons p rest ih =>
    simp only [List.map_cons, List.any_cons, ih]
    congr 1
    by_cases hpi : p.id = i
    · simp only [if_pos hpi, hpi]
      simp [hij]
    · simp only [if_neg hpi]

theorem outcome_persistOne_mono {s : DBState} {j : String}
    (h : hasOutcomeFor s j = true) (env : PersistEnv)
    (r : String × Analysis) : hasOutcomeFor (persistOne env s r) j = true := by
  unfold persistOne
  by_cases hf : env.saveFails r.1
  · simpa [hf] using h
  · simp only [hf, Bool.false_eq_true, if_false]
    by_cases hm : env.markFails r.1
    · simpa [hm] using hasOutcome_save_mono h r.1 r.2
    · simp only [hm, Bool.false_eq_true, if_false]
      rw [outcome_mark]
      exact hasOutcome_save_mono h r.1 r.2

theorem marked_persistOne {env : PersistEnv} {s : DBState} {j : String}
    {r : String × Analysis}
    (h : isMarkedProcessed (persistOne env s r) j = true) :
    isMarkedProcessed s j = true
    ∨ hasOutcomeFor (persistOne env s r) j = true := by
  unfold persistOne at h ⊢
  by_cases hf : env.saveFails r.1
  · left; simpa [hf] using h
  · simp only [hf, Bool.false_eq_true, if_false] at h ⊢
    by_cases hm : env.markFails r.1
    · left
      simp only [hm, if_true] at h
      rwa [marked_save] at h
    · simp only [hm, Bool.false_eq_true, if_false] at h ⊢
      by_cases hrj : r.1 = j
      · right
        rw [outcome_mark]
        rw [← hrj]
        exact hasOutcome_save_self s r.1 r.2
      · left
        rw [marked_mark_ne hrj, marked_save] at h
        exact h

theorem persist_marked_invariant (env : PersistEnv)
    (results : List (String × Analysis)) :
    ∀ (s : DBState) (j : String),
      (isMarkedProcessed s j = false ∨ hasOutcomeFor s j = true) →
      (isMarkedProcessed (persistResults env s results) j = false
        ∨ hasOutcomeFor (persistResults env s results) j = true) := by
  induction results with
  | nil => intro s j h; exact h
  | cons r rest ih =>
    intro s j h
    show isMarkedProcessed (persistResults env (persistOne env s r) rest) j
        = false
      ∨ hasOutcomeFor (persistResults env (persistOne env s r) rest) j = true
    apply ih
    rcases h with h | h
    · by_cases hm : isMarkedProcessed (persistOne env s r) j = true
      · rcases marked_persistOne hm with h1 | h1
        · rw [h] at h1; cases h1
        · right; exact h1
      · left; exact Bool.eq_false_iff.mpr hm
    · right; exact outcome_persistOne_mono h env r

theorem persist_saveFail_unmarked (env : PersistEnv)
    (results : List (String × Analysis)) :
    ∀ (s : DBState) (j : String),
      env.saveFails j = true → isMarkedProcessed s j = false →
      isMarkedProcessed (persistResults env s results) j = false := by
  induction results with
  | nil => intro s j _ h; exact h
  | cons r rest ih =>
    intro s j hf h
    show isMarkedProcessed (persistResults env (persistOne env s r) rest) j
        = false
    apply ih _ _ hf
    unfold persistOne
    by_cases hrf : env.saveFails r.1
    · simpa [hrf] using h
    · have hrj : ¬ r.1 = j := fun he => by rw [he, hf] at hrf; exact hrf rfl
      simp only [hrf, Bool.false_eq_true, if_false]
      by_cases hm : env.markFails r.1
      · simp only [hm, if_true]
        rwa [marked_save]
      · simp only [hm, Bool.false_eq_true, if_false]
        rwa [marked_mark_ne hrj, marked_save]

/-- Claim C7 as amended: over the coordinator's persistence loop, a
document (initially unprocessed, as every pending document is) is marked
processed ONLY IF its outcome has been durably written, a failed
`save_paper_analysis` prevents the corresponding `mark_paper_processed`,
and a document left unmarked is picked up again by the next run's
pending query; the converse of the first part does not hold, because
`mark_paper_processed` runs in its own transaction and can itself fail
after a successful save (see `C7_counterexample`). -/
theorem C7_mark_requires_write (env : PersistEnv) (s : DBState)
    (results : List (String × Analysis)) (j : String)
    (h0 : isMarkedProcessed s j = false) :
    (isMarkedProcessed (persistResults env s results) j = true →
      hasOutcomeFor (persistResults env s results) j = true)
    ∧ (env.saveFails j = true →
      isMarkedProcessed (persistResults env s results) j = false)
    ∧ (∀ p ∈ (persistResults env s results).papers, p.processed = false →
        p ∈ getUnprocessedPapers (persistResults env s results).papers) := by
  refine ⟨?_, fun hf => persist_saveFail_unmarked env results s j hf h0, ?_⟩
  · intro hm
    rcases persist_marked_invariant env results s j (Or.inl h0) with h | h
    · rw [hm] at h; cases h
    · exact h
  · intro p hp hproc
    have hmem : p ∈ (persistResults env s results).papers.filter
        (fun q => !q.processed) :=
      List.mem_filter.mpr ⟨hp, by simp [hproc]⟩
    exact ((List.perm_insertionSort _ _).mem_iff).mpr hmem

def c7Paper : Paper :=
  { id := "x", title := [], abstract := [], authors := [], categories := []
    published := none, processed := false }

def c7An : Analysis := ⟨1/2, [], false, []⟩

/-- The failure environment of the counterexample: every save succeeds,
but marking paper "x" fails. -/
def c7Env : PersistEnv := ⟨fun _ => false, fun i => decide (i = "x")⟩

/-- Claim C7, counterexample: when `mark_paper_processed` fails right
after a successful `save_paper_analysis` (each runs in its own sqlite
transaction), the outcome for "x" is durably written yet "x" is NOT
marked processed — refuting the claimed "if and only if". -/
theorem C7_counterexample :
    hasOutcomeFor (persistResults c7Env ⟨[c7Paper], []⟩ [("x", c7An)]) "x"
        = true
    ∧ isMarkedProcessed (persistResults c7Env ⟨[c7Paper], []⟩ [("x", c7An)])
        "x" = false := by
  with_unfolding_all decide

def c7EnvSaveFail : PersistEnv := ⟨fun _ => true, fun _ => false⟩

/-- Witness for `C7_mark_requires_write`: with a failing save, paper "x"
stays unmarked. -/
theorem C7_mark_requires_write_witness :
    isMarkedProcessed
      (persistResults c7EnvSaveFail ⟨[c7Paper], []⟩ [("x", c7An)]) "x"
      = false :=
  (C7_mark_requires_write c7EnvSaveFail ⟨[c7Paper], []⟩ [("x", c7An)] "x"
      (by with_unfolding_all decide)).2.1 rfl

/-! ## Claim C8 (code_bug) -/

theorem nextDispatch_ge (last a : ℚ) : last + 1/5 ≤ nextDispatch last a := by
  unfold nextDispatch
  split
  · exact le_refl _
  · linarith [not_lt.mp (by assumption : ¬ a - last < 1/5)]

theorem gaps_dispatchTimesAux (l : List ℚ) :
    ∀ last : ℚ, gapsAtLeast (1/5) (dispatchTimesAux last l) = true := by
  induction l with
  | nil => intro last; rfl
  | cons a rest ih =>
    intro last
    cases rest with
    | nil => rfl
    | cons b rest2 =>
      show (decide (nextDispatch last a + 1/5
              ≤ nextDispatch (nextDispatch last a) b)
            && gapsAtLeast (1/5)
                 (nextDispatch (nextDispatch last a) b
                   :: dispatchTimesAux
                        (nextDispatch (nextDispatch last a) b) rest2)) = true
      rw [Bool.and_eq_true]
      exact ⟨decide_eq_true (nextDispatch_ge _ _), ih (nextDispatch last a)⟩

/-- Claim C8: what the rate limiter actually guarantees, evaluated at a
failing schedule.  The lock-and-cursor logic enforces only a 0.2-second
minimum spacing between dispatches (first conjunct, for every arrival
schedule); the `threading.Semaphore(15)` bounds concurrent in-flight
calls, not calls per window.  For 26 workers all arriving at time 0 the
produced dispatch times are 0.2, 0.4, …, 5.2: the 5-second sliding
window starting at 0.2 contains 25 > 15 dispatches, and consecutive
dispatches are NOT separated by windowDuration/maxRequestsPerWindow
= 1/3 s — refuting the claimed 15-per-5-seconds ceiling that the code's
own comment ("15 requests per 5 seconds for Gemini") promises. -/
theorem C8_rate_gate_violation :
    (∀ arrivals : List ℚ,
        gapsAtLeast (1/5) (dispatchTimes arrivals) = true)
    ∧ windowCount (dispatchTimes (List.replicate 26 0)) (1/5) 5 = 25
    ∧ ¬ windowCount (dispatchTimes (List.replicate 26 0)) (1/5) 5 ≤ 15
    ∧ gapsAtLeast (1/3) (dispatchTimes (List.replicate 26 0)) = false := by
  refine ⟨fun arrivals => gaps_dispatchTimesAux arrivals 0, ?_, ?_, ?_⟩
  · with_unfolding_all decide
  · with_unfolding_all decide
  · with_unfolding_all decide

/-! ## Claim C3 (corrected) -/

/-- The composite outcome as a function of the declared inputs plus the
already-computed recency sub-score: the only channel through which the
clock reading enters `calculate_composite_score`. -/
noncomputable def compositeScoreGivenRecency (roster : List Str)
    (paper : Paper) (profile : Profile) (gem : Option ℚ) (recency : ℝ) :
    RelevanceOutcome :=
  let keywordSim := calculateKeywordSimilarity paper profile
  let categorySim := calculateCategorySimilarity paper profile
  let authorSim := calculateAuthorSimilarity paper profile
  let citation := calculateCitationPotential paper profile
  let w := weightsFor gem
  let aiScore : ℚ := gem.getD 0
  let composite : ℝ :=
    (w.keyword * keywordSim : ℚ) + (w.category * categorySim : ℚ)
    + (w.author * authorSim : ℚ) + (w.citation * citation : ℚ)
    + w.recency * recency + (w.aiAnalysis * aiScore : ℚ)
  let friendBoost := getFriendBoost roster (17/20) (3/10) paper.authors
  let score := min (composite + friendBoost) 1
  { compositeScore := score
    keywordSimilarity := keywordSim
    categorySimilarity := categorySim
    authorSimilarity := authorSim
    citationPotential := citation
    recencyScore := recency
    aiAnalysisScore := aiScore
    friendBoost := friendBoost
    isFriendPaper := decide (0 < friendBoost)
    flagged := (3/5 : ℝ) ≤ score }

def c3Paper : Paper :=
  { id := "c3", title := [], abstract := [], authors := [], categories := []
    published := some 0, processed := false }

def c3Profile : Profile := ⟨[], []⟩

/-- Claim C3, counterexample: two calls of the composite scorer with
bit-identical declared inputs (document, profile, roster, classifier
output) but different clock readings — at the publication instant and 30
days later — produce different outcome records, because the recency
sub-score reads the current time (`datetime.now`), which is not a
declared input. -/
theorem C3_counterexample :
    calculateCompositeScore [] c3Paper c3Profile none 0
      ≠ calculateCompositeScore [] c3Paper c3Profile none 2592000 := by
  intro h
  have hr := congrArg RelevanceOutcome.recencyScore h
  simp only [calculateCompositeScore, calculateRecencyScore, c3Paper] at hr
  have h1 : daysOldOf 0 0 = 0 := by with_unfolding_all decide
  have h2 : daysOldOf 2592000 0 = 30 := by with_unfolding_all decide
  rw [h1, h2] at hr
  have := Real.exp_eq_exp.mp hr
  norm_num at this

/-- Claim C3 as amended: the composite outcome is a deterministic
function of the declared inputs PLUS the current clock reading, and the
clock enters only through the recency sub-score (the outcome factors
through `calculate_recency_score`); in particular, for a document whose
published date is unparseable the outcome is fully determined by the
declared inputs alone. -/
theorem C3_deterministic_given_clock (roster : List Str) (paper : Paper)
    (profile : Profile) (gem : Option ℚ) (now : ℚ) :
    calculateCompositeScore roster paper profile gem now
      = compositeScoreGivenRecency roster paper profile gem
          (calculateRecencyScore paper now)
    ∧ (paper.published = none → ∀ now2 : ℚ,
        calculateCompositeScore roster paper profile gem now
          = calculateCompositeScore roster paper profile gem now2) := by
  constructor
  · rfl
  · intro hpub now2
    simp only [calculateCompositeScore, calculateRecencyScore, hpub]

def c3NoDate : Paper :=
  { id := "nd", title := [], abstract := [], authors := [], categories := []
    published := none, processed := false }

/-- Witness for `C3_deterministic_given_clock`: a paper without a
parseable date scores identically at two different clock readings. -/
theorem C3_deterministic_witness :
    calculateCompositeScore [] c3NoDate c3Profile none 0
      = calculateCompositeScore [] c3NoDate c3Profile none 86400 :=
  (C3_deterministic_given_clock [] c3NoDate c3Profile none 0).2 rfl 86400

end Dradis
